import Mathlib

/-!
Formal model of skymakercam (src/python/skymakercam/proxy.py).

The file shallowly embeds the proxy layer: Python values appearing in reply
bodies become the inductive type PyValue, a completed remote invocation (the
clu command object after awaiting) becomes ReplyHandle, Python exceptions and
other raised errors become PyErr, and the functions _stringToException,
DictObject, invoke, unpack, Proxy and _ProxyMethod are translated one by one.
Machine-level aspects (the AMQP transport, asyncio scheduling) are modelled by
explicit data: asyncio.gather resolves the given awaitables and reassembles
results in input order, which the list-valued model reflects directly.
-/

/-- Python values occurring in reply bodies and exception objects: None,
ints, strings, booleans, lists (also modelling tuples), dicts (insertion
ordered, as Python dicts are), and exception instances (class name plus
positional args). -/
inductive PyValue where
  | pynone
  | pyint (n : Int)
  | pystr (s : String)
  | pybool (b : Bool)
  | pylist (xs : List PyValue)
  | pydict (fields : List (String × PyValue))
  | pyexc (name : String) (args : List PyValue)

/-- Errors that the modelled code can raise: Python built-in errors raised by
indexing, key lookup, argument mismatch, recursion overflow, and
asyncio.TimeoutError; plus the two raise sites of invoke: a decoded Failure
Value raised for a single failed call, and ProxyException carrying the
positional error/None sequence for a failed fan-out. -/
inductive PyErr where
  | indexError
  | keyError
  | typeError
  | recursionError
  | timeoutError
  | raised (exc : PyValue)
  | proxyException (errors : List (Option PyValue))

/-- Outcome of the Python builtin eval on a string: a value, a SyntaxError,
or some other exception raised while evaluating. -/
inductive PyEvalOutcome where
  | ok (v : PyValue)
  | syntaxError
  | otherError (e : PyValue)

/-- Model of _stringToException (proxy.py lines 83-92).  The Python builtin
eval is passed in as evalFn, returning both the outcome and the list of side
effects the evaluation executed; the decoder forwards whatever effects eval
performed, which is how the model observes that line 86 executes code taken
from the string.  The three branches mirror the source: a successful eval is
returned as is, a SyntaxError yields ProxyPlainMessagException(errstr), and
any other exception e yields Exception("Unexpected exception in parsing
exception string", e). -/
def _stringToException (evalFn : String → PyEvalOutcome × List String)
    (errstr : String) : PyValue × List String :=
  match evalFn errstr with
  | (.ok v, effs) => (v, effs)
  | (.syntaxError, effs) =>
      (.pyexc "ProxyPlainMessagException" [.pystr errstr], effs)
  | (.otherError e, effs) =>
      (.pyexc "Exception"
        [.pystr "Unexpected exception in parsing exception string", e], effs)

/-- Model of the Python builtin eval on the concrete error strings exercised
in this development, each entry checked against CPython behaviour:
eval of a call to a built-in exception class returns that exception instance
with no side effect; eval of print(42) writes to stdout (a side effect,
recorded in the second component) and returns None; eval of 1/0 raises
ZeroDivisionError; every other string appearing in this file fails to
tokenize as a Python expression and raises SyntaxError with no side effect,
which the default branch models. -/
def pyEval (s : String) : PyEvalOutcome × List String :=
  if s = "ValueError(5)" then (.ok (.pyexc "ValueError" [.pyint 5]), [])
  else if s = "print(42)" then (.ok .pynone, ["print(42)"])
  else if s = "1/0" then
    (.otherError (.pyexc "ZeroDivisionError" [.pystr "division by zero"]), [])
  else (.syntaxError, [])

/-- True when the first character list is a prefix of the second. -/
def charPrefix : List Char → List Char → Bool
  | [], _ => true
  | _ :: _, [] => false
  | a :: as, b :: bs => a == b && charPrefix as bs

/-- True when needle occurs contiguously somewhere in the character list. -/
def charSearch (needle : List Char) : List Char → Bool
  | [] => charPrefix needle []
  | h :: t => charPrefix needle (h :: t) || charSearch needle t

/-- True when needle occurs verbatim as a substring of hay. -/
def strContains (hay needle : String) : Bool :=
  charSearch needle.data hay.data

mutual

/-- True when the string s occurs verbatim inside some string component of
the value (used to check whether a Failure Value still carries the original
error text). -/
def mentionsText : PyValue → String → Bool
  | .pystr t, s => strContains t s
  | .pyexc _ args, s => mentionsTextList args s
  | .pylist xs, s => mentionsTextList xs s
  | .pydict fs, s => mentionsTextFields fs s
  | _, _ => false

def mentionsTextList : List PyValue → String → Bool
  | [], _ => false
  | x :: xs, s => mentionsText x s || mentionsTextList xs s

def mentionsTextFields : List (String × PyValue) → String → Bool
  | [], _ => false
  | kv :: rest, s => mentionsText kv.2 s || mentionsTextFields rest s

end

/-- A reply body: the mapping carried by one AMQPReply (string keys to
structured values, in insertion order). -/
abbrev Body := List (String × PyValue)

/-- The awaited clu command object as invoke sees it: ret.status.did_fail
and ret.replies (modelled by their bodies, the only part the code reads). -/
structure ReplyHandle where
  did_fail : Bool
  replies : List Body

/-- Model of the expression _stringToException(<body>["error"]) applied to
the result of the dict lookup: a missing key raises KeyError; a string value
is decoded by _stringToException (effects dropped here, invoke only uses the
returned value); a non-string value makes eval raise TypeError, which the
bare except clause of _stringToException converts into the generic wrapper. -/
def decodeErrorField : Option PyValue → Except PyErr PyValue
  | none => .error .keyError
  | some (.pystr s) => .ok (_stringToException pyEval s).1
  | some _ =>
      .ok (.pyexc "Exception"
        [.pystr "Unexpected exception in parsing exception string",
         .pyexc "TypeError"
           [.pystr "eval() arg 1 must be a string, bytes or code object"]])

/-- Model of _stringToException(r.replies[-1].body["error"]) as used at
proxy.py lines 152 and 161: indexing replies[-1] of an empty list raises
IndexError, then the error field is looked up and decoded. -/
def replyError (r : ReplyHandle) : Except PyErr PyValue :=
  match r.replies.getLast? with
  | none => .error .indexError
  | some body => decodeErrorField (body.lookup "error")

/-- Model of r.replies[-1].body (the terminal reply body of a handle). -/
def lastBodyE (r : ReplyHandle) : Except PyErr Body :=
  match r.replies.getLast? with
  | none => .error .indexError
  | some body => .ok body

/-- The attribute values a DictObject instance stores (proxy.py lines
121-127): either a raw Python value set unchanged, a nested DictObject
(modelled by its stored dict together with its own attribute table), or a
list whose dict elements were wrapped and whose other elements were kept. -/
inductive AttrVal where
  | plain (v : PyValue)
  | wrapped (dict : List (String × PyValue)) (attrs : List (String × AttrVal))
  | mixedList (xs : List AttrVal)

mutual

/-- One element of a list value, as the comprehension at proxy.py line 125
builds it: DictObject(x) if isinstance(x, dict) else x. -/
def wrapElem : PyValue → AttrVal
  | .pydict fs => .wrapped fs (buildAttrs fs)
  | v => .plain v

def wrapElems : List PyValue → List AttrVal
  | [] => []
  | x :: xs => wrapElem x :: wrapElems xs

/-- The value setattr stores for one dict entry (proxy.py lines 123-127):
lists and tuples have their dict elements wrapped, dict values become nested
DictObjects, and every other value is stored unchanged. -/
def wrapAttr : PyValue → AttrVal
  | .pylist xs => .mixedList (wrapElems xs)
  | .pydict fs => .wrapped fs (buildAttrs fs)
  | v => .plain v

/-- The attribute table DictObject.__init__ builds by iterating d.items()
in order and calling setattr once per key. -/
def buildAttrs : List (String × PyValue) → List (String × AttrVal)
  | [] => []
  | kv :: rest => (kv.1, wrapAttr kv.2) :: buildAttrs rest

end

/-- Model of DictObject(d) (proxy.py lines 95-127): stores the dict itself
(self._dict) and one attribute per key. -/
def DictObject (d : List (String × PyValue)) : AttrVal :=
  .wrapped d (buildAttrs d)

/-- One step of access on values: a field of a mapping or an index of a
sequence. -/
inductive PathSeg where
  | fld (a : String)
  | idx (i : Nat)

/-- Path access on raw Python values: field segments look keys up in dicts,
index segments index lists, every other combination fails. -/
def srcGet : PyValue → List PathSeg → Option PyValue
  | v, [] => some v
  | .pydict fs, .fld a :: p =>
      match fs.lookup a with
      | some v => srcGet v p
      | none => none
  | .pylist xs, .idx i :: p =>
      match xs.get? i with
      | some v => srcGet v p
      | none => none
  | _, _ :: _ => none

/-- Path access through a DictObject view: field segments read the attribute
table of a wrapped node, index segments index a wrapped list; a raw value
stored unchanged is accessed like the plain Python value it is (raw dict
subscripts, raw list indexing). -/
def viewGet : AttrVal → List PathSeg → Option AttrVal
  | av, [] => some av
  | .wrapped _ attrs, .fld a :: p =>
      match attrs.lookup a with
      | some av => viewGet av p
      | none => none
  | .mixedList xs, .idx i :: p =>
      match xs.get? i with
      | some av => viewGet av p
      | none => none
  | .plain v, seg :: p => (srcGet v (seg :: p)).map AttrVal.plain
  | _, _ :: _ => none

mutual

/-- Projects a stored attribute back to the plain Python value it renders:
wrapped nodes become the dict of their attribute table, wrapped lists become
lists, raw values are themselves. -/
def unwrapAttr : AttrVal → PyValue
  | .plain v => v
  | .wrapped _ attrs => .pydict (unwrapAttrs attrs)
  | .mixedList xs => .pylist (unwrapList xs)

def unwrapAttrs : List (String × AttrVal) → List (String × PyValue)
  | [] => []
  | kv :: rest => (kv.1, unwrapAttr kv.2) :: unwrapAttrs rest

def unwrapList : List AttrVal → List PyValue
  | [] => []
  | x :: xs => unwrapAttr x :: unwrapList xs

end

/-- Results invoke can return: the terminal reply body of a single call
(raw dict or DictObject view), or the list of terminal bodies of a fan-out
(raw dicts or DictObject views), in input order. -/
inductive InvokeRes where
  | rawBody (b : Body)
  | viewBody (v : AttrVal)
  | rawList (bs : List Body)
  | viewList (vs : List AttrVal)

/-- One iteration of the for loop at proxy.py lines 148-154.  The loop body
assigns hasErrors=False at the top of EVERY iteration and sets it to True
only in the did_fail branch of the same iteration, so the flag leaving the
loop reflects only the last element; the fold state is (errors so far,
current hasErrors). -/
def fanStep (acc : List (Option PyValue) × Bool) (r : ReplyHandle) :
    Except PyErr (List (Option PyValue) × Bool) :=
  if r.did_fail then
    (replyError r).map (fun e => (acc.1 ++ [some e], true))
  else
    .ok (acc.1 ++ [none], false)

/-- The for loop at proxy.py lines 148-154 as a recursion over the remaining
handles, threading the (errors, hasErrors) state; an exception inside one
iteration aborts the loop, as in Python. -/
def fanLoop (acc : List (Option PyValue) × Bool) :
    List ReplyHandle → Except PyErr (List (Option PyValue) × Bool)
  | [] => .ok acc
  | r :: rest =>
    match fanStep acc r with
    | .error e => .error e
    | .ok acc2 => fanLoop acc2 rest

/-- The whole loop at proxy.py lines 147-154, run over the gathered results
(asyncio.gather resolves them in input order), starting from errors=[]. -/
def fanScan (ret : List ReplyHandle) : Except PyErr (List (Option PyValue) × Bool) :=
  fanLoop ([], false) ret

/-- The comprehension [r.replies[-1].body for r in ret] (proxy.py lines
156-157): collects the terminal bodies left to right, raising IndexError at
the first handle without replies. -/
def lastBodies : List ReplyHandle → Except PyErr (List Body)
  | [] => .ok []
  | r :: rest =>
    match lastBodyE r with
    | .error e => .error e
    | .ok b => (lastBodies rest).map (fun bs => b :: bs)

/-- Model of invoke (proxy.py lines 130-164) applied to the already-awaited
handles of the pending commands; asyncio.gather returns the results in the
input order of argv.  With more than one argument the loop classifies every
handle, ProxyException(errors) is raised if hasErrors survives the loop
(that is, if the LAST handle failed), and otherwise the list of terminal
bodies (raw or as DictObject views) is returned.  With at most one argument
argv[0] is awaited (IndexError on an empty argv) and on failure the decoded
error of its terminal body is raised, on success that body is returned raw
or as a DictObject view. -/
def invoke (raw : Bool) (argv : List ReplyHandle) : Except PyErr InvokeRes :=
  if 1 < argv.length then
    match fanScan argv with
    | .error e => .error e
    | .ok (errors, hasErrors) =>
      if hasErrors then .error (.proxyException errors)
      else if raw then (lastBodies argv).map InvokeRes.rawList
      else (lastBodies argv).map (fun bs => InvokeRes.viewList (bs.map DictObject))
  else
    match argv with
    | [] => .error .indexError
    | c :: _ =>
      if c.did_fail then
        match replyError c with
        | .error e => .error e
        | .ok exc => .error (.raised exc)
      else
        match c.replies.getLast? with
        | none => .error .indexError
        | some body =>
          .ok (if raw then .rawBody body else .viewBody (DictObject body))

/-- The comprehension [ret[i] for i in argv] (proxy.py line 200): looks the
requested keys up left to right, raising KeyError at the first missing one. -/
def lookupAll (ret : Body) : List String → Except PyErr (List PyValue)
  | [] => .ok []
  | i :: rest =>
    match ret.lookup i with
    | some v => (lookupAll ret rest).map (fun vs => v :: vs)
    | none => .error .keyError

/-- Model of unpack (proxy.py lines 166-201): invokes the single command with
raw=True, then projects the terminal body; len(ret)==0 returns None (a bare
return), len(ret)==1 returns the sole value (list(ret.values())[0]), more
than one requested name selects those keys in requested order (a missing key
raises KeyError), and otherwise all values are returned in the body key
order.  A non-dict result of invoke would make len() raise TypeError; that
branch is unreachable because invoke is called with raw=True. -/
def unpack (cmd : ReplyHandle) (argv : List String) : Except PyErr PyValue :=
  match invoke true [cmd] with
  | .error e => .error e
  | .ok (.rawBody ret) =>
    if ret.length = 0 then .ok .pynone
    else if ret.length = 1 then
      match ret.map Prod.snd with
      | v :: _ => .ok v
      | [] => .error .indexError
    else if 1 < argv.length then
      (lookupAll ret argv).map PyValue.pylist
    else .ok (.pylist (ret.map Prod.snd))
  | .ok _ => .error .typeError

/-- The transport collaborator: amqpc.send_command(consumer, command, *args,
callback=callback) returns the in-flight clu command.  The model records, for
given arguments, how many time units the awaited send_command coroutine takes
(first component, compared against the asyncio.wait_for bound) and the
command object it resolves to (second component).  The callback is forwarded
unchanged and is opaque to the proxy layer, modelled by an optional tag. -/
structure Transport where
  send_command : String → String → List PyValue → Option Nat → Rat × ReplyHandle

/-- Model of the _ProxyMethod instance: the three slots set by __init__
(proxy.py lines 37-47). -/
structure _ProxyMethod where
  _amqpc : Transport
  _consumer : String
  _command : String

/-- Model of the Proxy instance (proxy.py lines 65-77). -/
structure Proxy where
  _consumer : String
  _amqpc : Transport

/-- Model of Proxy.__getattr__ (proxy.py lines 79-80): any attribute access
on the root returns _ProxyMethod(self._amqpc, self._consumer, command). -/
def Proxy.__getattr__ (p : Proxy) (command : String) : _ProxyMethod :=
  ⟨p._amqpc, p._consumer, command⟩

/-- Model of _ProxyMethod.__getattr__ (proxy.py lines 49-50), with fuel
bounding the Python call stack.  The body is
_ProxyMethod(".".join((self._consumer, item)), func=self.func); Python
evaluates self.func before the constructor call, func is not among the three
__slots__ entries, so the lookup re-enters __getattr__ with item="func" and
recursion exhausts the stack (RecursionError).  Were the inner lookup ever
to produce a value, the constructor call itself would raise TypeError, since
__init__ takes (amqpc, consumer, command) and no func keyword; that dead
branch is kept for fidelity. -/
def _ProxyMethod.__getattr__ (fuel : Nat) (m : _ProxyMethod) (_item : String) :
    Except PyErr _ProxyMethod :=
  match fuel with
  | 0 => .error .recursionError
  | fuel + 1 =>
    match _ProxyMethod.__getattr__ fuel m "func" with
    | .error e => .error e
    | .ok _ => .error .typeError

/-- The default of the timeout parameter of _ProxyMethod.__call__
(proxy.py line 57), kept verbatim. -/
def defaultTimeout : Rat := 1.4142

/-- What a call on a _ProxyMethod returns: the resolved command object after
await command (blocking), or the still-pending command (non-blocking). -/
inductive CallResult where
  | resolved (r : ReplyHandle)
  | pending (r : ReplyHandle)

/-- Model of _ProxyMethod.__call__ (proxy.py lines 52-62): kwargs are turned
into option pairs ["--key", value] in mapping order and appended after the
positional args; send_command(self._consumer, self._command.lower(), *args,
*opts, callback=callback) is wrapped in asyncio.wait_for(_, timeout), which
raises TimeoutError when the coroutine needs more time than the bound;
otherwise await command is returned when blocking, the pending command when
not.  The await of the resolved command sits outside the wait_for boundary,
exactly as in the source. -/
def _ProxyMethod.__call__ (m : _ProxyMethod) (args : List PyValue)
    (kwargs : List (String × PyValue)) (blocking : Bool) (callback : Option Nat)
    (timeout : Rat) : Except PyErr CallResult :=
  let opts := (kwargs.map fun kv => [PyValue.pystr ("--" ++ kv.1), kv.2]).flatten
  let sent := m._amqpc.send_command m._consumer m._command.toLower
    (args ++ opts) callback
  if timeout < sent.1 then .error .timeoutError
  else .ok (if blocking then .resolved sent.2 else .pending sent.2)

/-- Terminal body of a failed command: the error field carries the string
form of the remote exception, here ValueError(5). -/
def bodyBoom : Body := [("error", .pystr "ValueError(5)")]

/-- Terminal body of a successful command. -/
def bodyOkC : Body := [("x", .pyint 5)]

/-- A failed awaited command. -/
def cFail : ReplyHandle := ⟨true, [bodyBoom]⟩

/-- A successful awaited command. -/
def cOk : ReplyHandle := ⟨false, [bodyOkC]⟩

/-- A successful awaited command whose terminal body has two fields. -/
def cmdXY : ReplyHandle := ⟨false, [[("x", .pyint 1), ("y", .pyint 2)]]⟩

theorem except_map_error {α β γ : Type} (f : α → β) (x : Except γ α) (e : γ)
    (h : x.map f = .error e) : x = .error e := by
  cases x with
  | error e2 => simpa [Except.map] using h
  | ok a => simp [Except.map] at h

/-- The only exceptions replyError itself raises are IndexError (no replies)
and KeyError (no error field); every decoded error string yields a value. -/
theorem replyError_error_cases (r : ReplyHandle) (e : PyErr)
    (h : replyError r = .error e) : e = .indexError ∨ e = .keyError := by
  unfold replyError at h
  split at h
  · injection h with h2
    exact Or.inl h2.symm
  · rename_i body _
    cases hk : body.lookup "error" with
    | none =>
      rw [hk] at h
      simp [decodeErrorField] at h
      exact Or.inr h.symm
    | some v =>
      rw [hk] at h
      cases v <;> simp [decodeErrorField] at h

theorem fanStep_error (acc : List (Option PyValue) × Bool) (r : ReplyHandle)
    (e : PyErr) (h : fanStep acc r = .error e) :
    e = .indexError ∨ e = .keyError := by
  unfold fanStep at h
  by_cases hf : r.did_fail
  · rw [if_pos hf] at h
    cases hre : replyError r with
    | error e2 =>
      rw [hre] at h
      simp [Except.map] at h
      exact h ▸ replyError_error_cases r e2 hre
    | ok v =>
      rw [hre] at h
      simp [Except.map] at h
  · rw [if_neg hf] at h
    simp at h

theorem fanLoop_error : ∀ (l : List ReplyHandle)
    (acc : List (Option PyValue) × Bool) (e : PyErr),
    fanLoop acc l = .error e → e = .indexError ∨ e = .keyError := by
  intro l
  induction l with
  | nil =>
    intro acc e h
    simp [fanLoop] at h
  | cons r rest ih =>
    intro acc e h
    unfold fanLoop at h
    cases hs : fanStep acc r with
    | error e2 =>
      rw [hs] at h
      injection h with h2
      exact h2 ▸ fanStep_error acc r e2 hs
    | ok acc2 =>
      rw [hs] at h
      exact ih acc2 e h

theorem lastBodies_error : ∀ (l : List ReplyHandle) (e : PyErr),
    lastBodies l = .error e → e = .indexError := by
  intro l
  induction l with
  | nil => intro e h; simp [lastBodies] at h
  | cons r rest ih =>
    intro e h
    unfold lastBodies at h
    cases hb : lastBodyE r with
    | error e2 =>
      rw [hb] at h
      injection h with h2
      subst h2
      unfold lastBodyE at hb
      split at hb
      · injection hb with h3
        exact h3.symm
      · cases hb
    | ok b =>
      rw [hb] at h
      cases hr : lastBodies rest with
      | error e2 =>
        rw [hr] at h
        simp [Except.map] at h
        exact h ▸ ih e2 hr
      | ok bs => rw [hr] at h; simp [Except.map] at h

/-- When the loop at proxy.py lines 148-154 completes, the errors list it
built extends the incoming accumulator with one entry per handle, in input
order: a decoded Failure Value exactly at the failed handles and None at
the successful ones. -/
theorem fanLoop_ok_shape : ∀ (l : List ReplyHandle)
    (acc out : List (Option PyValue) × Bool),
    fanLoop acc l = .ok out →
    ∃ tail, out.1 = acc.1 ++ tail ∧ tail.length = l.length ∧
      (∀ i, (tail.get? i).map Option.isSome = (l.get? i).map ReplyHandle.did_fail) := by
  intro l
  induction l with
  | nil =>
    intro acc out h
    simp [fanLoop] at h
    refine ⟨[], ?_, rfl, ?_⟩
    · rw [← h]; simp
    · intro i; simp
  | cons r rest ih =>
    intro acc out h
    unfold fanLoop at h
    cases hs : fanStep acc r with
    | error e =>
      rw [hs] at h
      cases h
    | ok acc2 =>
      rw [hs] at h
      obtain ⟨tail, ht1, ht2, ht3⟩ := ih acc2 out h
      unfold fanStep at hs
      by_cases hf : r.did_fail
      · rw [if_pos hf] at hs
        cases hre : replyError r with
        | error e2 =>
          rw [hre] at hs
          simp [Except.map] at hs
        | ok ev =>
          rw [hre] at hs
          simp [Except.map] at hs
          refine ⟨some ev :: tail, ?_, by simp [ht2], ?_⟩
          · rw [ht1, ← hs]; simp
          · intro i
            cases i with
            | zero => simp [hf]
            | succ j => simpa using ht3 j
      · rw [if_neg hf] at hs
        injection hs with hs2
        refine ⟨none :: tail, ?_, by simp [ht2], ?_⟩
        · rw [ht1, ← hs2]; simp
        · intro i
          cases i with
          | zero =>
            simp
            simp [Bool.not_eq_true] at hf
            exact hf
          | succ j => simpa using ht3 j

/-- Claim C9: for every fan-out where invoke raises the Aggregate Failure
(ProxyException), the carried sequence has exactly the length of the input,
holds a Failure Value exactly at the positions of the failed calls and None
at every other position, in the input order of the pending calls (the model
resolves gathered handles in input order, so the sequence is independent of
completion order). -/
theorem c9_aggregate_positional (raw : Bool) (argv : List ReplyHandle)
    (errors : List (Option PyValue))
    (h : invoke raw argv = .error (.proxyException errors)) :
    errors.length = argv.length ∧
    ∀ i, (errors.get? i).map Option.isSome = (argv.get? i).map ReplyHandle.did_fail := by
  unfold invoke at h
  by_cases hlen : 1 < argv.length
  · rw [if_pos hlen] at h
    split at h
    · rename_i e heq
      injection h with h2
      rcases fanLoop_error argv ([], false) e heq with h3 | h3 <;>
        (rw [h3] at h2; simp at h2)
    · rename_i errs hasErr heq
      by_cases hh : hasErr = true
      · rw [if_pos hh] at h
        injection h with h2
        injection h2 with h3
        subst h3
        obtain ⟨tail, ht1, ht2, ht3⟩ :=
          fanLoop_ok_shape argv ([], false) (errs, hasErr) heq
        simp at ht1
        subst ht1
        exact ⟨ht2, ht3⟩
      · rw [if_neg hh] at h
        by_cases hr : raw
        · rw [if_pos hr] at h
          have h4 := lastBodies_error argv _ (except_map_error _ _ _ h)
          simp at h4
        · rw [if_neg hr] at h
          have h4 := lastBodies_error argv _ (except_map_error _ _ _ h)
          simp at h4
  · rw [if_neg hlen] at h
    split at h
    · injection h with h2
      simp at h2
    · rename_i c rest
      by_cases hf : c.did_fail
      · rw [if_pos hf] at h
        split at h
        · rename_i e heq
          injection h with h2
          rcases replyError_error_cases c e heq with h3 | h3 <;>
            (rw [h3] at h2; simp at h2)
        · injection h with h2
          simp at h2
      · rw [if_neg hf] at h
        split at h
        · injection h with h2
          simp at h2
        · cases h

/-- Witness for claim C9 at a concrete fan-out of two commands whose second
(and last) member failed: invoke raises ProxyException carrying
[None, ValueError(5)], and the positional property holds. -/
theorem c9_witness :
    (([none, some (PyValue.pyexc "ValueError" [PyValue.pyint 5])] :
        List (Option PyValue)).length = [cOk, cFail].length) ∧
    ∀ i, (([none, some (PyValue.pyexc "ValueError" [PyValue.pyint 5])] :
        List (Option PyValue)).get? i).map Option.isSome =
      ([cOk, cFail].get? i).map ReplyHandle.did_fail :=
  c9_aggregate_positional true [cOk, cFail]
    [none, some (PyValue.pyexc "ValueError" [PyValue.pyint 5])] rfl

/-- Claim C10: calling invoke with zero pending commands takes the
single-invocation branch (the guard only tests len(argv) greater than one),
where the unguarded argv[0] raises IndexError: no result is returned and
neither a decoded Failure Value nor the aggregate ProxyException is
raised. -/
theorem c10_invoke_empty_indexerror (raw : Bool) :
    invoke raw [] = .error .indexError := rfl

/-- Claim C1 (code behaviour at the failing input): in a fan-out where the
first command failed and the second succeeded, invoke does NOT raise: it
returns both terminal bodies.  The loop at proxy.py line 149 reassigns
hasErrors=False on every iteration, so after the loop the flag only reflects
the last command, contradicting the claim (and the docstring of invoke) that
any single failure raises the aggregate ProxyException. -/
theorem c1_fanout_ignores_nonfinal_failures :
    cFail.did_fail = true ∧
    invoke true [cFail, cOk] = .ok (.rawList [bodyBoom, bodyOkC]) :=
  ⟨rfl, rfl⟩

mutual

theorem unwrapAttr_wrapAttr : (v : PyValue) → unwrapAttr (wrapAttr v) = v
  | .pynone => by simp [wrapAttr, unwrapAttr]
  | .pyint _ => by simp [wrapAttr, unwrapAttr]
  | .pystr _ => by simp [wrapAttr, unwrapAttr]
  | .pybool _ => by simp [wrapAttr, unwrapAttr]
  | .pyexc _ _ => by simp [wrapAttr, unwrapAttr]
  | .pylist xs => by simp [wrapAttr, unwrapAttr, unwrapList_wrapElems xs]
  | .pydict fs => by simp [wrapAttr, unwrapAttr, unwrapAttrs_buildAttrs fs]

theorem unwrapAttr_wrapElem : (v : PyValue) → unwrapAttr (wrapElem v) = v
  | .pynone => by simp [wrapElem, unwrapAttr]
  | .pyint _ => by simp [wrapElem, unwrapAttr]
  | .pystr _ => by simp [wrapElem, unwrapAttr]
  | .pybool _ => by simp [wrapElem, unwrapAttr]
  | .pyexc _ _ => by simp [wrapElem, unwrapAttr]
  | .pylist _ => by simp [wrapElem, unwrapAttr]
  | .pydict fs => by simp [wrapElem, unwrapAttr, unwrapAttrs_buildAttrs fs]

theorem unwrapList_wrapElems : (xs : List PyValue) → unwrapList (wrapElems xs) = xs
  | [] => by simp [wrapElems, unwrapList]
  | x :: rest => by
      simp [wrapElems, unwrapList, unwrapAttr_wrapElem x, unwrapList_wrapElems rest]

theorem unwrapAttrs_buildAttrs :
    (fs : List (String × PyValue)) → unwrapAttrs (buildAttrs fs) = fs
  | [] => by simp [buildAttrs, unwrapAttrs]
  | kv :: rest => by
      simp [buildAttrs, unwrapAttrs, unwrapAttr_wrapAttr kv.2,
        unwrapAttrs_buildAttrs rest]

end

/-- Path access through a raw value stored unchanged in the view is path
access on the value itself. -/
theorem viewGet_plain (v : PyValue) (p : List PathSeg) :
    (viewGet (.plain v) p).map unwrapAttr = srcGet v p := by
  cases p with
  | nil => simp [viewGet, unwrapAttr, srcGet]
  | cons seg rest =>
    simp [viewGet, Option.map_map]
    have h1 : (unwrapAttr ∘ AttrVal.plain) = id := funext fun x => rfl
    rw [h1, Option.map_id]
    rfl

/-- The attribute table built by DictObject.__init__ answers lookups exactly
as the source dict does, with the stored value wrapped. -/
theorem lookup_buildAttrs : ∀ (fs : List (String × PyValue)) (a : String),
    (buildAttrs fs).lookup a = (fs.lookup a).map wrapAttr := by
  intro fs a
  induction fs with
  | nil => simp [buildAttrs]
  | cons kv rest ih =>
    obtain ⟨k, b⟩ := kv
    by_cases hk : a = k
    · subst hk
      simp [buildAttrs, List.lookup]
    · have hbeq : (a == k) = false := by simp [hk]
      simp [buildAttrs, List.lookup, hbeq, ih]

/-- The wrapped list built at proxy.py line 125 indexes exactly as the
source list does, with elements wrapped. -/
theorem getElem?_wrapElems : ∀ (xs : List PyValue) (i : Nat),
    (wrapElems xs)[i]? = (xs[i]?).map wrapElem := by
  intro xs
  induction xs with
  | nil => intro i; simp [wrapElems]
  | cons x rest ih =>
    intro i
    cases i with
    | zero => simp [wrapElems]
    | succ j => simpa [wrapElems] using ih j

theorem sizeOf_lookup : ∀ (fs : List (String × PyValue)) (a : String) (v : PyValue),
    fs.lookup a = some v → sizeOf v < sizeOf fs := by
  intro fs a
  induction fs with
  | nil => intro v h; simp [List.lookup] at h
  | cons kv rest ih =>
    obtain ⟨k, b⟩ := kv
    intro v h
    simp [List.lookup] at h
    by_cases hk : (a == k) = true
    · rw [hk] at h
      injection h with h2
      subst h2
      simp
      omega
    · have hbeq : (a == k) = false := by simpa using hk
      rw [hbeq] at h
      have := ih v h
      simp
      omega

theorem sizeOf_getElem : ∀ (xs : List PyValue) (i : Nat) (x : PyValue),
    xs[i]? = some x → sizeOf x < sizeOf xs := by
  intro xs
  induction xs with
  | nil => intro i x h; simp at h
  | cons y rest ih =>
    intro i x h
    cases i with
    | zero =>
      rw [List.getElem?_cons_zero] at h
      injection h with h2
      subst h2
      simp
      omega
    | succ j =>
      rw [List.getElem?_cons_succ] at h
      have := ih j x h
      simp
      omega

/-- Core round trip, by strong induction on the size of the value: following
any path through the view built from a value and projecting the result back
to a plain value agrees with following the same path through the source
value, both for values stored by setattr (wrapAttr) and for list elements
(wrapElem). -/
theorem viewGet_wrap_aux : ∀ (N : Nat) (v : PyValue), sizeOf v ≤ N → ∀ (p : List PathSeg),
    (viewGet (wrapAttr v) p).map unwrapAttr = srcGet v p ∧
    (viewGet (wrapElem v) p).map unwrapAttr = srcGet v p := by
  intro N
  induction N with
  | zero =>
    intro v hv
    exact absurd hv (by cases v <;> simp)
  | succ n ih =>
    intro v hv p
    have hmain : (viewGet (wrapAttr v) p).map unwrapAttr = srcGet v p := by
      cases p with
      | nil =>
        simp [viewGet, srcGet]
        exact unwrapAttr_wrapAttr v
      | cons seg rest =>
        cases v with
        | pynone => simpa [wrapAttr] using viewGet_plain .pynone (seg :: rest)
        | pyint k => simpa [wrapAttr] using viewGet_plain (.pyint k) (seg :: rest)
        | pystr s => simpa [wrapAttr] using viewGet_plain (.pystr s) (seg :: rest)
        | pybool b => simpa [wrapAttr] using viewGet_plain (.pybool b) (seg :: rest)
        | pyexc nm args =>
          simpa [wrapAttr] using viewGet_plain (.pyexc nm args) (seg :: rest)
        | pydict fs =>
          cases seg with
          | fld a =>
            cases hk : fs.lookup a with
            | none => simp [viewGet, srcGet, wrapAttr, lookup_buildAttrs, hk]
            | some v2 =>
              have hv2 : sizeOf v2 ≤ n := by
                have h2 := sizeOf_lookup fs a v2 hk
                have h3 : sizeOf fs < sizeOf (PyValue.pydict fs) := by simp
                omega
              simp [viewGet, srcGet, wrapAttr, lookup_buildAttrs, hk]
              exact (ih v2 hv2 rest).1
          | idx i => simp [viewGet, srcGet, wrapAttr]
        | pylist xs =>
          cases seg with
          | fld a => simp [viewGet, srcGet, wrapAttr]
          | idx i =>
            cases hk : xs[i]? with
            | none => simp [viewGet, srcGet, wrapAttr, getElem?_wrapElems, hk]
            | some x =>
              have hx : sizeOf x ≤ n := by
                have h2 := sizeOf_getElem xs i x hk
                have h3 : sizeOf xs < sizeOf (PyValue.pylist xs) := by simp
                omega
              simp [viewGet, srcGet, wrapAttr, getElem?_wrapElems, hk]
              exact (ih x hx rest).2
    refine ⟨hmain, ?_⟩
    cases v with
    | pydict fs => simpa [wrapElem, wrapAttr] using hmain
    | pynone => simpa [wrapElem] using viewGet_plain .pynone p
    | pyint k => simpa [wrapElem] using viewGet_plain (.pyint k) p
    | pystr s => simpa [wrapElem] using viewGet_plain (.pystr s) p
    | pybool b => simpa [wrapElem] using viewGet_plain (.pybool b) p
    | pyexc nm args => simpa [wrapElem] using viewGet_plain (.pyexc nm args) p
    | pylist xs => simpa [wrapElem] using viewGet_plain (.pylist xs) p

/-- Claim C6: for every mapping, the DictObject view satisfies the round
trip: access along every path (field segments through attribute tables,
index segments through wrapped sequences, plain subscripting through values
stored unchanged) returns exactly the value of the source mapping at that path,
with mapping values wrapped recursively as views (projected back by
unwrapAttr), mapping elements of sequences wrapped as views, and every
non-mapping value passed through unchanged.  The statement covers all
mappings, in particular those of the claim (scalar, nested-mapping or
sequence values). -/
theorem c6_dictobject_roundtrip (d : List (String × PyValue)) (p : List PathSeg) :
    (viewGet (DictObject d) p).map unwrapAttr = srcGet (.pydict d) p := by
  have h := (viewGet_wrap_aux (sizeOf (PyValue.pydict d)) (.pydict d) le_rfl p).1
  simpa [DictObject, wrapAttr] using h

/-- Claim C2 (code behaviour): attribute access on a _ProxyMethod never
returns an extended handle.  For every stack budget, every handle and every
attribute name, the lookup ends in RecursionError: the body first evaluates
self.func, func is not among the three __slots__ entries, so the lookup
re-enters __getattr__ unboundedly, contradicting the claim (and the return
annotation of __getattr__) that a new CommandHandle with the appended path
segment is returned. -/
theorem c2_getattr_never_returns_handle : ∀ (fuel : Nat) (m : _ProxyMethod)
    (item : String),
    _ProxyMethod.__getattr__ fuel m item = .error .recursionError := by
  intro fuel
  induction fuel with
  | zero => intro m item; rfl
  | succ n ih =>
    intro m item
    unfold _ProxyMethod.__getattr__
    rw [ih m "func"]

/-- Claim C3 (code behaviour at the failing input): decoding the error
string print(42) executes the code contained in the string.  Line 86 of
proxy.py passes the raw string to the Python builtin eval, so the decoder
inherits every side effect of evaluating it: the effect trace of decoding
is non-empty, contradicting the claim that decoding is a pure function of
the string with no side effects. -/
theorem c3_decoder_executes_string_code :
    _stringToException pyEval "print(42)" = (.pynone, ["print(42)"]) ∧
    (_stringToException pyEval "print(42)").2 ≠ ([] : List String) :=
  ⟨rfl, by decide⟩

/-- Counterexample to claim C4: the error string 1/0 is not a recognized
failure kind (its evaluation raises ZeroDivisionError rather than producing
a failure value), yet the decoder does not return a plain-message failure
containing 1/0: it returns the generic two-part wrapper of the bare except
branch (proxy.py lines 91-92), and the original text 1/0 occurs nowhere in
the returned value. -/
theorem c4_counterexample_text_lost :
    pyEval "1/0" =
      (.otherError (.pyexc "ZeroDivisionError" [.pystr "division by zero"]), []) ∧
    (_stringToException pyEval "1/0").1 =
      .pyexc "Exception" [.pystr "Unexpected exception in parsing exception string",
        .pyexc "ZeroDivisionError" [.pystr "division by zero"]] ∧
    mentionsText (_stringToException pyEval "1/0").1 "1/0" = false := by
  refine ⟨rfl, rfl, ?_⟩
  simp [mentionsText, mentionsTextList, mentionsTextFields]
  decide

/-- Claim C4 (amended): for every error string whose evaluation raises a
SyntaxError (the string does not parse as Python), the decoder returns the
plain-message failure ProxyPlainMessagException carrying the original string
verbatim as its argument; strings that parse but raise during evaluation
fall into the generic branch instead, which does not preserve the text. -/
theorem c4_syntax_error_preserved_verbatim
    (evalFn : String → PyEvalOutcome × List String)
    (errstr : String) (effs : List String)
    (h : evalFn errstr = (.syntaxError, effs)) :
    (_stringToException evalFn errstr).1 =
      .pyexc "ProxyPlainMessagException" [.pystr errstr] := by
  unfold _stringToException
  rw [h]

/-- Witness for claim C4 at a concrete unparsable error string. -/
theorem c4_witness :
    (_stringToException pyEval "camera fault: no such device").1 =
      .pyexc "ProxyPlainMessagException" [.pystr "camera fault: no such device"] :=
  c4_syntax_error_preserved_verbatim pyEval "camera fault: no such device" [] rfl

/-- invoke on a single handle reduces to the else branch of proxy.py lines
158-164. -/
theorem invoke_single_branch (raw : Bool) (ret : ReplyHandle) :
    invoke raw [ret] =
      (if ret.did_fail then
        match replyError ret with
        | .error e => .error e
        | .ok exc => .error (.raised exc)
      else
        match ret.replies.getLast? with
        | none => .error .indexError
        | some body => .ok (if raw then .rawBody body else .viewBody (DictObject body))) := rfl

/-- Claim C7: for a single pending command, invoke raises the Failure Value
decoded from the error field of the terminal reply body when the awaited
status is failed, and otherwise returns that terminal body, raw when
raw=true and as a DictObject view when raw=false. -/
theorem c7_single_invocation (raw : Bool) (ret : ReplyHandle) (body : Body)
    (hlast : ret.replies.getLast? = some body) :
    (ret.did_fail = true → ∀ s, body.lookup "error" = some (.pystr s) →
      invoke raw [ret] = .error (.raised (_stringToException pyEval s).1)) ∧
    (ret.did_fail = false →
      invoke raw [ret] = .ok (if raw then .rawBody body else .viewBody (DictObject body))) := by
  have hre : replyError ret = decodeErrorField (body.lookup "error") := by
    unfold replyError
    rw [hlast]
  constructor
  · intro hf s hk
    rw [invoke_single_branch, hf, if_pos rfl, hre, hk]
    rfl
  · intro hf
    rw [invoke_single_branch, hf]
    simp only [Bool.false_eq_true, if_false]
    rw [hlast]

/-- Witness for claim C7: the single failed command raises the decoded
ValueError(5); the single successful command returns its body as a view. -/
theorem c7_witness :
    invoke true [cFail] = .error (.raised (_stringToException pyEval "ValueError(5)").1) ∧
    invoke false [cOk] = .ok (.viewBody (DictObject bodyOkC)) :=
  ⟨(c7_single_invocation true cFail bodyBoom rfl).1 rfl "ValueError(5)" rfl,
   (c7_single_invocation false cOk bodyOkC rfl).2 rfl⟩

/-- When every requested key is present, the comprehension over the
requested names returns exactly the values of those fields in requested order. -/
theorem lookupAll_all_present : ∀ (argv : List String) (body : Body),
    (∀ i ∈ argv, (body.lookup i).isSome = true) →
    lookupAll body argv = .ok (argv.filterMap fun i => body.lookup i) := by
  intro argv body
  induction argv with
  | nil => intro h; rfl
  | cons a rest ih =>
    intro h
    unfold lookupAll
    cases hk : body.lookup a with
    | none =>
      have h2 := h a (by simp)
      rw [hk] at h2
      simp at h2
    | some v =>
      rw [ih (fun i hi => h i (by simp [hi]))]
      simp [Except.map, List.filterMap_cons, hk]

/-- Claim C5 (amended): for a single successful command, unpack of the
terminal body returns None for an empty body, the sole value (unwrapped)
for a one-field body, the values of the requested fields in requested order when
the body has several fields and AT LEAST TWO field names were requested
(the guard at proxy.py line 200 is len(argv) greater than 1, so one single
requested name is ignored), and otherwise all values in body key order. -/
theorem c5_unpack_contract_amended (cmd : ReplyHandle) (argv : List String)
    (body : Body) (hfail : cmd.did_fail = false)
    (hlast : cmd.replies.getLast? = some body) :
    (body = [] → unpack cmd argv = .ok .pynone) ∧
    (∀ k v, body = [(k, v)] → unpack cmd argv = .ok v) ∧
    (1 < body.length → 1 < argv.length →
      (∀ i ∈ argv, (body.lookup i).isSome = true) →
      unpack cmd argv = .ok (.pylist (argv.filterMap fun i => body.lookup i))) ∧
    (1 < body.length → argv.length ≤ 1 →
      unpack cmd argv = .ok (.pylist (body.map Prod.snd))) := by
  have hinv : invoke true [cmd] = .ok (.rawBody body) := by
    rw [invoke_single_branch, hfail]
    simp only [Bool.false_eq_true, if_false]
    rw [hlast]
    rfl
  have hu : unpack cmd argv =
      (if body.length = 0 then .ok .pynone
       else if body.length = 1 then
         match body.map Prod.snd with
         | v :: _ => .ok v
         | [] => .error .indexError
       else if 1 < argv.length then (lookupAll body argv).map PyValue.pylist
       else .ok (.pylist (body.map Prod.snd))) := by
    unfold unpack
    rw [hinv]
  refine ⟨?_, ?_, ?_, ?_⟩
  · intro hb
    subst hb
    rw [hu]
    rfl
  · intro k v hb
    subst hb
    rw [hu]
    rfl
  · intro h1 h2 h3
    rw [hu, if_neg (by omega), if_neg (by omega), if_pos h2]
    rw [lookupAll_all_present argv body h3]
    rfl
  · intro h1 h2
    rw [hu, if_neg (by omega), if_neg (by omega), if_neg (by omega)]

/-- Counterexample to claim C5: with the two-field body of cmdXY and the
single requested field name y, unpack returns ALL values [1, 2] in body key
order rather than the value [2] of the requested field: the requested-names
branch is only taken for two or more names. -/
theorem c5_counterexample_single_name :
    unpack cmdXY ["y"] = .ok (.pylist [.pyint 1, .pyint 2]) ∧
    (Except.ok (PyValue.pylist [PyValue.pyint 1, PyValue.pyint 2]) :
      Except PyErr PyValue) ≠ .ok (.pylist [.pyint 2]) := by
  constructor
  · rfl
  · intro h
    injection h with h2
    injection h2 with h3
    injection h3 with h4 h5
    injection h5

/-- Witness for claim C5: requesting the two names y and x from the
two-field body returns their values in the requested order. -/
theorem c5_witness :
    unpack cmdXY ["y", "x"] = .ok (.pylist [.pyint 2, .pyint 1]) :=
  (c5_unpack_contract_amended cmdXY ["y", "x"]
      [("x", .pyint 1), ("y", .pyint 2)] rfl rfl).2.2.1
    (by decide) (by decide) (by decide)

/-- A transport whose send_command coroutine completes within one time unit
and resolves to the successful command cOk. -/
def fastTransport : Transport := ⟨fun _ _ _ _ => (1, cOk)⟩

/-- A transport whose send_command coroutine needs two time units, beyond
the default timeout bound. -/
def slowTransport : Transport := ⟨fun _ _ _ _ => (2, cOk)⟩

/-- A handle bound to the fast transport; the command segment is upper case
to exercise the lower-casing at send time. -/
def mFast : _ProxyMethod := ⟨fastTransport, "camera", "STATUS"⟩

/-- A handle bound to the slow transport. -/
def mSlow : _ProxyMethod := ⟨slowTransport, "camera", "STATUS"⟩

/-- Claim C8: a call on a _ProxyMethod sends the command path of the handle
(a single segment for every constructible handle, shown joined with the dot
separator) lower-cased, with the consumer name passed separately as the
transport routing target per the transport contract; every named argument
becomes a pair of positional entries --key value appended after the
positional arguments; the send is wrapped in the timeout boundary whose
default is verbatim 1.4142, raising TimeoutError when the send takes
longer; and the call returns the resolved command when blocking and the
pending command when not. -/
theorem c8_call_contract (m : _ProxyMethod) (args : List PyValue)
    (kwargs : List (String × PyValue)) (blocking : Bool) (cb : Option Nat) :
    defaultTimeout = 14142 / 10000 ∧
    (defaultTimeout <
        (m._amqpc.send_command m._consumer
          ((String.intercalate "." [m._command]).toLower)
          (args ++ (kwargs.map fun kv => [PyValue.pystr ("--" ++ kv.1), kv.2]).flatten) cb).1 →
      _ProxyMethod.__call__ m args kwargs blocking cb defaultTimeout =
        .error .timeoutError) ∧
    ((m._amqpc.send_command m._consumer
          ((String.intercalate "." [m._command]).toLower)
          (args ++ (kwargs.map fun kv => [PyValue.pystr ("--" ++ kv.1), kv.2]).flatten) cb).1
        ≤ defaultTimeout →
      _ProxyMethod.__call__ m args kwargs blocking cb defaultTimeout =
        .ok (if blocking then
          .resolved (m._amqpc.send_command m._consumer
            ((String.intercalate "." [m._command]).toLower)
            (args ++ (kwargs.map fun kv => [PyValue.pystr ("--" ++ kv.1), kv.2]).flatten) cb).2
        else
          .pending (m._amqpc.send_command m._consumer
            ((String.intercalate "." [m._command]).toLower)
            (args ++ (kwargs.map fun kv => [PyValue.pystr ("--" ++ kv.1), kv.2]).flatten) cb).2)) := by
  have hi : String.intercalate "." [m._command] = m._command := rfl
  rw [hi]
  refine ⟨by norm_num [defaultTimeout], ?_, ?_⟩
  · intro hlt
    simp only [_ProxyMethod.__call__]
    rw [if_pos hlt]
  · intro hle
    simp only [_ProxyMethod.__call__]
    rw [if_neg (not_lt.mpr hle)]

/-- Witness for claim C8: on the slow transport the default timeout elapses
and TimeoutError is raised; on the fast transport a non-blocking call
returns the pending command. -/
theorem c8_witness :
    _ProxyMethod.__call__ mSlow [] [] true none defaultTimeout = .error .timeoutError ∧
    _ProxyMethod.__call__ mFast [] [] false none defaultTimeout = .ok (.pending cOk) :=
  ⟨(c8_call_contract mSlow [] [] true none).2.1
      (by norm_num [defaultTimeout, mSlow, slowTransport]),
   (c8_call_contract mFast [] [] false none).2.2
      (by norm_num [defaultTimeout, mFast, fastTransport])⟩
